import Mathlib

/-!
Verification of the dta-backend ledger state machine against its
natural-language specification.

The definitions below are a shallow embedding of the JavaScript route
handlers of the repository.  Monetary amounts (JS numbers) are modelled as
`Int`; Mongo documents become Lean structures; document stores become lists
indexed by position (standing for Mongo ids); handlers that can answer with
an HTTP 4xx error become `Except`-valued functions, and an error response
leaves the persisted state unchanged (in the source every error return
happens before any `save()` call of the same handler).
-/

namespace DTA

/-- Withdrawal status enum (`src/unnamed/part_008`, admin routes). -/
inductive WStatus
  | pending
  | approved
  | declined
  | paid
deriving DecidableEq, Repr

/-- Transaction status enum (`src/routes/admin.js` transaction sync). -/
inductive TxStatus
  | pending
  | completed
  | failed
deriving DecidableEq, Repr

/-- Transaction type enum. -/
inductive TxType
  | withdrawal
  | deposit
deriving DecidableEq, Repr

/-- User account status enum (`src/models/User.js`). -/
inductive UStatus
  | pending
  | verified
  | active
  | suspended
deriving DecidableEq, Repr

/-- Deposit type as supplied in the request body of `POST /deposits`. -/
inductive DepType
  | registration
  | upgradePay
  | other
deriving DecidableEq, Repr

/-- A persisted withdrawal record (`src/unnamed/part_008` lines 304-310). -/
structure Withdrawal where
  amount : Int
  status : WStatus
deriving DecidableEq, Repr

/-- A persisted transaction record (ledger mirror referenced by
`src/routes/admin.js` lines 65-74). -/
structure Transaction where
  amount : Int
  ttype : TxType
  status : TxStatus
deriving DecidableEq, Repr

/-- The `balance` subdocument of a user (`src/models/User.js` lines 13-16). -/
structure Balance where
  available : Int
  pending : Int
deriving DecidableEq, Repr

/-- An upgrade record created by `POST /deposits` with type `upgrade`
(`src/unnamed/part_008` lines 212-216). -/
structure DepositUpgrade where
  level : Int
  amount : Int
deriving DecidableEq, Repr

/-- The persisted state relevant to the ledger: one user's balance and task
fields together with the withdrawal / transaction / upgrade stores. -/
structure LedgerState where
  balance : Balance
  withdrawals : List Withdrawal
  transactions : List Transaction
  upgrades : List DepositUpgrade
  userStatus : UStatus
  tasksCompleted : Int
  lastTaskDate : Option String
deriving DecidableEq, Repr

/-- Errors surfaced as HTTP 4xx responses by the handlers. -/
inductive LErr
  | notFound
  | insufficientOrInvalid
  | noPaymentMethod
  | mustBeApprovedFirst
  | invalidReward
  | taskAlreadyCompletedToday
  | missingAmount
  | missingFields
  | levelNotHigher
deriving DecidableEq, Repr

/-- `Transaction.findOne({amount: -amt, type: 'Withdrawal', status: 'pending'})`
followed by a status update: rewrite the first matching record, leave the
rest unchanged (`src/routes/admin.js` lines 65-74 and 96-105). -/
def txMatchUpdate (txs : List Transaction) (amt : Int) (new : TxStatus) :
    List Transaction :=
  match txs with
  | [] => []
  | t :: ts =>
    if t.amount = -amt ∧ t.ttype = TxType.withdrawal ∧ t.status = TxStatus.pending then
      { t with status := new } :: ts
    else t :: txMatchUpdate ts amt new

/-- `POST /withdrawals` (`src/unnamed/part_008` lines 288-324): reject when
`amount <= 0 || amount > user.balance.available`, then when no payment
method exists; otherwise persist a `pending` withdrawal and move `amount`
from `available` to `pending`. -/
def createWithdrawal (s : LedgerState) (amount : Int) (hasPaymentMethod : Bool) :
    Except LErr LedgerState :=
  if amount ≤ 0 ∨ s.balance.available < amount then
    Except.error LErr.insufficientOrInvalid
  else if !hasPaymentMethod then
    Except.error LErr.noPaymentMethod
  else
    Except.ok { s with
      withdrawals := s.withdrawals ++ [{ amount := amount, status := WStatus.pending }],
      balance := { available := s.balance.available - amount,
                   pending := s.balance.pending + amount } }

/-- `POST /withdrawals/:id/approve` (`src/routes/admin.js` lines 57-81):
404 when the withdrawal does not exist, otherwise set its status to
`approved` with no check of the current status, and mark the first matching
pending mirror transaction `completed`.  The balance is never touched. -/
def approveWithdrawal (s : LedgerState) (id : Nat) : Except LErr LedgerState :=
  match s.withdrawals[id]? with
  | none => Except.error LErr.notFound
  | some w =>
    Except.ok { s with
      withdrawals := s.withdrawals.set id { w with status := WStatus.approved },
      transactions := txMatchUpdate s.transactions w.amount TxStatus.completed }

/-- `POST /withdrawals/:id/decline` (`src/routes/admin.js` lines 83-118):
404 when missing; otherwise add the amount back to `available`, subtract it
from `pending`, set the status to `declined` — again with no check of the
current status — and mark the mirror transaction `failed`. -/
def declineWithdrawal (s : LedgerState) (id : Nat) : Except LErr LedgerState :=
  match s.withdrawals[id]? with
  | none => Except.error LErr.notFound
  | some w =>
    Except.ok { s with
      balance := { available := s.balance.available + w.amount,
                   pending := s.balance.pending - w.amount },
      withdrawals := s.withdrawals.set id { w with status := WStatus.declined },
      transactions := txMatchUpdate s.transactions w.amount TxStatus.failed }

/-- `POST /withdrawals/:id/paid` (`src/routes/admin.js` lines 120-144):
404 when missing; 400 `Must be approved first` unless the status is exactly
`approved`; otherwise set the status to `paid` and subtract the amount from
`pending` (`available` untouched). -/
def markWithdrawalPaid (s : LedgerState) (id : Nat) : Except LErr LedgerState :=
  match s.withdrawals[id]? with
  | none => Except.error LErr.notFound
  | some w =>
    if w.status ≠ WStatus.approved then
      Except.error LErr.mustBeApprovedFirst
    else
      Except.ok { s with
        withdrawals := s.withdrawals.set id { w with status := WStatus.paid },
        balance := { s.balance with pending := s.balance.pending - w.amount } }

/-- `POST /tasks`, fixed-reward variant (`src/unnamed/part_008` lines
327-345): unconditionally add 1 to `tasksCompleted` and 500 to
`balance.available`; no once-per-day gate. -/
def completeTaskFixed (s : LedgerState) : LedgerState :=
  { s with
    tasksCompleted := s.tasksCompleted + 1,
    balance := { s.balance with available := s.balance.available + 500 } }

/-- `POST /tasks`, reward-parameter variant (`src/unnamed/part_009` lines
1288-1334): reject unless the caller-supplied `reward` is a number `> 0`
(`!reward || isNaN(reward) || reward <= 0`); reject when `lastTaskDate`
already equals today's date string; otherwise add 1 to `tasksCompleted`,
add `reward` to `balance.available` and set `lastTaskDate` to today. -/
def completeTaskWithReward (s : LedgerState) (reward : Int) (today : String) :
    Except LErr LedgerState :=
  if reward ≤ 0 then
    Except.error LErr.invalidReward
  else if s.lastTaskDate = some today then
    Except.error LErr.taskAlreadyCompletedToday
  else
    Except.ok { s with
      tasksCompleted := s.tasksCompleted + 1,
      balance := { s.balance with available := s.balance.available + reward },
      lastTaskDate := some today }

/-- `POST /deposits` (`src/unnamed/part_008` lines 202-224): with type
`registration` set the user's status to `active` and add the caller-supplied
amount to `available`, with no validation of the amount; with type `upgrade`
persist an upgrade record; any other type saves the user unchanged. -/
def confirmDeposit (s : LedgerState) (amount : Int) (dtype : DepType) (level : Int) :
    LedgerState :=
  match dtype with
  | DepType.registration =>
    { s with
      userStatus := UStatus.active,
      balance := { s.balance with available := s.balance.available + amount } }
  | DepType.upgradePay =>
    { s with upgrades := s.upgrades ++ [{ level := level, amount := amount }] }
  | DepType.other => s

/-- `POST /deposits`, `withRetry` variant (`src/unnamed/part_009` lines
296-327): identical except for the initial `if (!amount || !type)` guard;
for an integer amount, JS truthiness rejects exactly `0`.  No positivity
check. -/
def confirmDepositRetry (s : LedgerState) (amount : Int) (dtype : DepType)
    (level : Int) : Except LErr LedgerState :=
  if amount = 0 then Except.error LErr.missingAmount
  else Except.ok (confirmDeposit s amount dtype level)

/-- The ledger operations named by the balance invariant: withdrawal
creation, approve, decline, mark-paid, the two task-credit variants and
deposit confirmation. -/
inductive Op
  | createW (amount : Int) (hasPaymentMethod : Bool)
  | approveW (id : Nat)
  | declineW (id : Nat)
  | payW (id : Nat)
  | taskFixed
  | taskReward (reward : Int) (today : String)
  | deposit (amount : Int) (dtype : DepType) (level : Int)
deriving DecidableEq, Repr

/-- A handler that answers with an error leaves the persisted state as it
was. -/
def orSame (r : Except LErr LedgerState) (s : LedgerState) : LedgerState :=
  match r with
  | Except.ok s' => s'
  | Except.error _ => s

/-- The state after one handler invocation. -/
def applyOp (s : LedgerState) : Op → LedgerState
  | Op.createW a m => orSame (createWithdrawal s a m) s
  | Op.approveW id => orSame (approveWithdrawal s id) s
  | Op.declineW id => orSame (declineWithdrawal s id) s
  | Op.payW id => orSame (markWithdrawalPaid s id) s
  | Op.taskFixed => completeTaskFixed s
  | Op.taskReward r d => orSame (completeTaskWithReward s r d) s
  | Op.deposit a t l => confirmDeposit s a t l

/-- The state after a sequence of handler invocations. -/
def run (s : LedgerState) : List Op → LedgerState
  | [] => s
  | op :: ops => run (applyOp s op) ops

/-- Contribution of one withdrawal record to the reserved funds: records in
`pending` or `approved` still hold their reservation. -/
def wContrib (w : Withdrawal) : Int :=
  if w.status = WStatus.pending ∨ w.status = WStatus.approved then w.amount else 0

/-- Total reserved funds across the withdrawal store. -/
def wsum : List Withdrawal → Int
  | [] => 0
  | w :: ws => wContrib w + wsum ws

theorem wsum_append (l₁ l₂ : List Withdrawal) :
    wsum (l₁ ++ l₂) = wsum l₁ + wsum l₂ := by
  induction l₁ with
  | nil => simp [wsum]
  | cons w ws ih => simp [wsum, ih]; ring

theorem wsum_set (l : List Withdrawal) (i : Nat) (w w' : Withdrawal)
    (h : l[i]? = some w) :
    wsum (l.set i w') = wsum l - wContrib w + wContrib w' := by
  induction l generalizing i with
  | nil => simp at h
  | cons x xs ih =>
    cases i with
    | zero =>
      simp only [List.getElem?_cons_zero, Option.some.injEq] at h
      subst h
      simp [wsum]
      ring
    | succ n =>
      simp only [List.getElem?_cons_succ] at h
      simp [wsum, ih n h]
      ring

theorem wsum_nonneg (l : List Withdrawal) (h : ∀ w ∈ l, 0 < w.amount) :
    0 ≤ wsum l := by
  induction l with
  | nil => simp [wsum]
  | cons x xs ih =>
    have hx := h x (List.mem_cons_self x xs)
    have hxs : 0 ≤ wsum xs := ih fun w hw => h w (List.mem_cons_of_mem _ hw)
    have hc : 0 ≤ wContrib x := by unfold wContrib; split <;> omega
    simp only [wsum]
    omega

/-- The bookkeeping invariant tying the balance to the withdrawal store:
`available` is non-negative, `pending` equals the total amount reserved by
withdrawals still in `pending`/`approved` status, and every stored
withdrawal has a positive amount. -/
def Inv (s : LedgerState) : Prop :=
  0 ≤ s.balance.available ∧
  s.balance.pending = wsum s.withdrawals ∧
  ∀ w ∈ s.withdrawals, 0 < w.amount

/-- The withdrawal targeted by an operation is currently `pending` (or does
not exist, in which case the handler is a no-op on the state). -/
def pendingAt (s : LedgerState) (id : Nat) : Bool :=
  match s.withdrawals[id]? with
  | some w => w.status == WStatus.pending
  | none => true

/-- The state-machine discipline the specification intends: approve and
decline are only invoked on withdrawals currently in `pending` status, and
deposit amounts are non-negative.  The handlers themselves enforce none of
this. -/
def goodOp (s : LedgerState) : Op → Bool
  | Op.approveW id => pendingAt s id
  | Op.declineW id => pendingAt s id
  | Op.deposit a _ _ => decide (0 ≤ a)
  | _ => true

/-- Every operation of the sequence respects `goodOp` in the state where it
is applied. -/
def goodRun (s : LedgerState) : List Op → Bool
  | [] => true
  | op :: ops => goodOp s op && goodRun (applyOp s op) ops

theorem mem_of_lookup {α : Type} (l : List α) (i : Nat) (a : α)
    (h : l[i]? = some a) : a ∈ l := by
  obtain ⟨hlt, rfl⟩ := List.getElem?_eq_some.1 h
  exact List.getElem_mem hlt

theorem inv_applyOp (s : LedgerState) (op : Op) (hInv : Inv s)
    (hg : goodOp s op = true) : Inv (applyOp s op) := by
  obtain ⟨hav, hpend, hamts⟩ := hInv
  cases op with
  | createW a m =>
    simp only [applyOp, createWithdrawal]
    split
    next => exact ⟨hav, hpend, hamts⟩
    next hc =>
      split
      next => exact ⟨hav, hpend, hamts⟩
      next hm =>
        push_neg at hc
        refine ⟨?_, ?_, ?_⟩
        · show 0 ≤ s.balance.available - a
          omega
        · show s.balance.pending + a =
            wsum (s.withdrawals ++ [{ amount := a, status := WStatus.pending }])
          rw [wsum_append]
          simp [wsum, wContrib]
          omega
        · intro w hw
          rcases List.mem_append.1 hw with h | h
          · exact hamts w h
          · simp only [List.mem_singleton] at h
            subst h
            exact hc.1
  | approveW id =>
    simp only [applyOp, approveWithdrawal]
    split
    next => exact ⟨hav, hpend, hamts⟩
    next w hw =>
      have hwp : w.status = WStatus.pending := by
        simpa [goodOp, pendingAt, hw] using hg
      refine ⟨hav, ?_, ?_⟩
      · show s.balance.pending =
          wsum (s.withdrawals.set id { w with status := WStatus.approved })
        rw [wsum_set s.withdrawals id w _ hw]
        simp [wContrib, hwp]
        omega
      · intro x hx
        rcases List.mem_or_eq_of_mem_set hx with h | h
        · exact hamts x h
        · subst h
          exact hamts w (mem_of_lookup _ _ _ hw)
  | declineW id =>
    simp only [applyOp, declineWithdrawal]
    split
    next => exact ⟨hav, hpend, hamts⟩
    next w hw =>
      have hwp : w.status = WStatus.pending := by
        simpa [goodOp, pendingAt, hw] using hg
      have hwa : 0 < w.amount := hamts w (mem_of_lookup _ _ _ hw)
      refine ⟨?_, ?_, ?_⟩
      · show 0 ≤ s.balance.available + w.amount
        omega
      · show s.balance.pending - w.amount =
          wsum (s.withdrawals.set id { w with status := WStatus.declined })
        rw [wsum_set s.withdrawals id w _ hw]
        simp [wContrib, hwp]
        omega
      · intro x hx
        rcases List.mem_or_eq_of_mem_set hx with h | h
        · exact hamts x h
        · subst h
          exact hwa
  | payW id =>
    simp only [applyOp, markWithdrawalPaid]
    split
    next => exact ⟨hav, hpend, hamts⟩
    next w hw =>
      split
      next => exact ⟨hav, hpend, hamts⟩
      next hne =>
        have hwa : w.status = WStatus.approved := not_not.1 hne
        have hpos : 0 < w.amount := hamts w (mem_of_lookup _ _ _ hw)
        refine ⟨hav, ?_, ?_⟩
        · show s.balance.pending - w.amount =
            wsum (s.withdrawals.set id { w with status := WStatus.paid })
          rw [wsum_set s.withdrawals id w _ hw]
          simp [wContrib, hwa]
          omega
        · intro x hx
          rcases List.mem_or_eq_of_mem_set hx with h | h
          · exact hamts x h
          · subst h
            exact hpos
  | taskFixed =>
    refine ⟨?_, hpend, hamts⟩
    show 0 ≤ s.balance.available + 500
    omega
  | taskReward r d =>
    simp only [applyOp, completeTaskWithReward]
    split
    next => exact ⟨hav, hpend, hamts⟩
    next hr =>
      split
      next => exact ⟨hav, hpend, hamts⟩
      next =>
        push_neg at hr
        refine ⟨?_, hpend, hamts⟩
        show 0 ≤ s.balance.available + r
        omega
  | deposit a t l =>
    have ha : 0 ≤ a := by simpa [goodOp] using hg
    cases t with
    | registration =>
      refine ⟨?_, hpend, hamts⟩
      show 0 ≤ s.balance.available + a
      omega
    | upgradePay => exact ⟨hav, hpend, hamts⟩
    | other => exact ⟨hav, hpend, hamts⟩

theorem inv_run (s : LedgerState) (ops : List Op) (hInv : Inv s)
    (hg : goodRun s ops = true) : Inv (run s ops) := by
  induction ops generalizing s with
  | nil => simpa [run] using hInv
  | cons op ops ih =>
    rw [goodRun, Bool.and_eq_true] at hg
    exact ih (applyOp s op) (inv_applyOp s op hInv hg.1) hg.2

/-- Initial state for the concrete scenarios: `available = 1000`,
`pending = 0`, empty stores (the spec's own worked scenario). -/
def demoState : LedgerState :=
  { balance := { available := 1000, pending := 0 },
    withdrawals := [], transactions := [], upgrades := [],
    userStatus := UStatus.active, tasksCompleted := 0, lastTaskDate := none }

/-- **C1** (counterexample to the claim as stated): the claim asserts that
after ANY sequence of ledger operations both balance fields stay
non-negative.  Starting from `available = 1000, pending = 0`, the sequence
create-withdrawal(400), decline, decline leaves `pending = -400`: the
decline handler performs no status check, so the second decline debits
`pending` again. -/
theorem c1_pending_goes_negative :
    (run demoState [Op.createW 400 true, Op.declineW 0, Op.declineW 0]).balance.pending
      = -400 := by
  decide

/-- **C1** (amended): both balance fields stay non-negative after any
sequence of ledger operations PROVIDED the sequence respects the intended
state-machine discipline — approve and decline are only invoked on
withdrawals currently in status `pending`, and deposit amounts are
non-negative — starting from any state satisfying the bookkeeping
invariant `Inv`.  Without that discipline the handlers themselves do not
enforce it and `pending` can go negative (see `c1_pending_goes_negative`). -/
theorem c1_balances_nonneg_of_goodRun (s : LedgerState) (ops : List Op)
    (h1 : Inv s) (h2 : goodRun s ops = true) :
    0 ≤ (run s ops).balance.available ∧ 0 ≤ (run s ops).balance.pending := by
  obtain ⟨hav, hpend, hamts⟩ := inv_run s ops h1 h2
  exact ⟨hav, hpend ▸ wsum_nonneg _ hamts⟩

/-- Witness for `c1_balances_nonneg_of_goodRun`: the spec's worked scenario
create(400); approve; mark-paid from `available = 1000`. -/
theorem c1_witness :
    Inv demoState ∧
    goodRun demoState [Op.createW 400 true, Op.approveW 0, Op.payW 0] = true ∧
    (0 ≤ (run demoState [Op.createW 400 true, Op.approveW 0, Op.payW 0]).balance.available ∧
     0 ≤ (run demoState [Op.createW 400 true, Op.approveW 0, Op.payW 0]).balance.pending) :=
  ⟨by unfold Inv; decide, by decide,
    c1_balances_nonneg_of_goodRun demoState _ (by unfold Inv; decide) (by decide)⟩

/-- The state after creating a withdrawal of 400 and approving it once. -/
def approvedState : LedgerState := run demoState [Op.createW 400 true, Op.approveW 0]

/-- **C2** (counterexample to the claim as stated): the claim asserts a
second approve call on an already-`approved` withdrawal is rejected with an
error.  After create(400); approve, the stored withdrawal is `approved`,
yet a second approve call succeeds (the handler performs no status check). -/
theorem c2_second_approve_not_rejected :
    approvedState.withdrawals[0]? = some { amount := 400, status := WStatus.approved } ∧
    (approveWithdrawal approvedState 0).isOk = true := by
  decide

/-- **C2** (amended): the approve handler checks only existence, not
status: for a withdrawal in ANY current status it succeeds, sets the
status to `approved`, updates the matching mirror transaction, and leaves
the user's balance unchanged (so in particular a second approve call
succeeds rather than failing, and the balance is unchanged by it). -/
theorem c2_approve_any_status (s : LedgerState) (id : Nat) (w : Withdrawal)
    (h : s.withdrawals[id]? = some w) :
    approveWithdrawal s id =
      Except.ok { s with
        withdrawals := s.withdrawals.set id { w with status := WStatus.approved },
        transactions := txMatchUpdate s.transactions w.amount TxStatus.completed } ∧
    (applyOp s (Op.approveW id)).balance = s.balance := by
  constructor
  · simp [approveWithdrawal, h]
  · simp [applyOp, approveWithdrawal, h, orSame]

/-- Witness for `c2_approve_any_status`: the second approve call on the
already-approved record of `approvedState` leaves the balance unchanged. -/
theorem c2_witness :
    approvedState.withdrawals[0]? = some { amount := 400, status := WStatus.approved } ∧
    (applyOp approvedState (Op.approveW 0)).balance = approvedState.balance :=
  ⟨by decide,
    (c2_approve_any_status approvedState 0 { amount := 400, status := WStatus.approved }
      (by decide)).2⟩

/-- The state after creating a withdrawal of 400 and declining it once. -/
def declinedState : LedgerState := run demoState [Op.createW 400 true, Op.declineW 0]

/-- **C3** (counterexample to the claim as stated): the claim asserts that a
second decline attempt on the same record fails.  After create(400);
decline, the record is already `declined`, yet a second decline call
succeeds and applies the same balance delta again, pushing `available`
to 1400. -/
theorem c3_second_decline_succeeds :
    declinedState.withdrawals[0]? = some { amount := 400, status := WStatus.declined } ∧
    (declineWithdrawal declinedState 0).isOk = true ∧
    (run demoState [Op.createW 400 true, Op.declineW 0, Op.declineW 0]).balance.available
      = 1400 := by
  decide

/-- **C3** (amended): declining a withdrawal of amount A increases
`available` by exactly A, decreases `pending` by exactly A, sets the status
to `declined` and updates the mirror transaction — but the handler checks
only existence, not the current status, so this holds for a record in ANY
status: a second decline attempt does not fail, it succeeds and applies the
delta a second time. -/
theorem c3_decline_delta_any_status (s : LedgerState) (id : Nat) (w : Withdrawal)
    (h : s.withdrawals[id]? = some w) :
    declineWithdrawal s id =
      Except.ok { s with
        balance := { available := s.balance.available + w.amount,
                     pending := s.balance.pending - w.amount },
        withdrawals := s.withdrawals.set id { w with status := WStatus.declined },
        transactions := txMatchUpdate s.transactions w.amount TxStatus.failed } := by
  simp [declineWithdrawal, h]

/-- Witness for `c3_decline_delta_any_status`: declining the pending
400-withdrawal created from `demoState` restores `available = 1000`,
`pending = 0`. -/
theorem c3_witness :
    (run demoState [Op.createW 400 true]).withdrawals[0]?
      = some { amount := 400, status := WStatus.pending } ∧
    declineWithdrawal (run demoState [Op.createW 400 true]) 0 =
      Except.ok { run demoState [Op.createW 400 true] with
        balance := { available := 600 + 400, pending := 400 - 400 },
        withdrawals := [{ amount := 400, status := WStatus.declined }],
        transactions := [] } :=
  ⟨by decide,
    c3_decline_delta_any_status (run demoState [Op.createW 400 true]) 0
      { amount := 400, status := WStatus.pending } (by decide)⟩

/-- **C4** (confirmed): marking a withdrawal paid requires current status
exactly `approved`: in any other status the handler fails with the
`Must be approved first` error and the state — in particular the balance —
is unchanged; on success the status becomes `paid`, `pending` is debited by
the amount and `available` is untouched. -/
theorem c4_markPaid_requires_approved (s : LedgerState) (id : Nat) (w : Withdrawal)
    (h : s.withdrawals[id]? = some w) :
    (w.status ≠ WStatus.approved →
      markWithdrawalPaid s id = Except.error LErr.mustBeApprovedFirst ∧
      applyOp s (Op.payW id) = s) ∧
    (w.status = WStatus.approved →
      markWithdrawalPaid s id =
        Except.ok { s with
          withdrawals := s.withdrawals.set id { w with status := WStatus.paid },
          balance := { s.balance with pending := s.balance.pending - w.amount } }) := by
  constructor
  · intro hne
    constructor
    · simp [markWithdrawalPaid, h, hne]
    · simp [applyOp, markWithdrawalPaid, h, hne, orSame]
  · intro heq
    simp [markWithdrawalPaid, h, heq]

/-- Witness for `c4_markPaid_requires_approved`: paying the still-`pending`
400-withdrawal created from `demoState` fails and leaves the state
unchanged. -/
theorem c4_witness :
    (run demoState [Op.createW 400 true]).withdrawals[0]?
      = some { amount := 400, status := WStatus.pending } ∧
    markWithdrawalPaid (run demoState [Op.createW 400 true]) 0 =
      Except.error LErr.mustBeApprovedFirst ∧
    applyOp (run demoState [Op.createW 400 true]) (Op.payW 0) =
      run demoState [Op.createW 400 true] :=
  ⟨by decide,
    (c4_markPaid_requires_approved (run demoState [Op.createW 400 true]) 0
      { amount := 400, status := WStatus.pending } (by decide)).1 (by decide)⟩

/-- **C5** (confirmed): for a user with a payment method, creating a
withdrawal of amount A succeeds exactly when `0 < A ≤ available`; on
success it debits `available` by A, credits `pending` by A and persists the
withdrawal with status `pending`; when `A ≤ 0` or `A > available` it fails
with the insufficient-balance error and the state (hence both balance
fields) is unchanged. -/
theorem c5_createWithdrawal_spec (s : LedgerState) (a : Int) :
    ((createWithdrawal s a true).isOk = true ↔ 0 < a ∧ a ≤ s.balance.available) ∧
    (0 < a ∧ a ≤ s.balance.available →
      createWithdrawal s a true =
        Except.ok { s with
          withdrawals := s.withdrawals ++ [{ amount := a, status := WStatus.pending }],
          balance := { available := s.balance.available - a,
                       pending := s.balance.pending + a } }) ∧
    (a ≤ 0 ∨ s.balance.available < a →
      createWithdrawal s a true = Except.error LErr.insufficientOrInvalid ∧
      applyOp s (Op.createW a true) = s) := by
  refine ⟨?_, ?_, ?_⟩
  · unfold createWithdrawal
    split
    next hc => simp [Except.isOk, Except.toBool]; omega
    next hc => push_neg at hc; simp [Except.isOk, Except.toBool]; omega
  · intro hc
    unfold createWithdrawal
    split
    next h => omega
    next h => simp
  · intro hc
    constructor
    · unfold createWithdrawal
      split
      next => rfl
      next h => exact absurd hc h
    · show orSame (createWithdrawal s a true) s = s
      unfold createWithdrawal
      split
      next => rfl
      next h => exact absurd hc h

/-- Witness for `c5_createWithdrawal_spec`: from `available = 1000` a
withdrawal of 1500 fails with the insufficient-balance error and the state
is unchanged, while a withdrawal of 400 succeeds. -/
theorem c5_witness :
    createWithdrawal demoState 1500 true = Except.error LErr.insufficientOrInvalid ∧
    applyOp demoState (Op.createW 1500 true) = demoState :=
  (c5_createWithdrawal_spec demoState 1500).2.2 (by decide)

/-- **C6** (counterexample to the claim as stated): the claim asserts that
every withdrawal creation also persists a mirrored Transaction record with
status `pending` and the amount negated.  Creating a withdrawal of 400
from `demoState` succeeds, yet the transaction store stays empty — no
handler in the repository ever creates a Transaction. -/
theorem c6_no_transaction_created :
    (createWithdrawal demoState 400 true).isOk = true ∧
    (run demoState [Op.createW 400 true]).transactions = [] := by
  decide

theorem txMatchUpdate_nil (amt : Int) (st : TxStatus) :
    txMatchUpdate [] amt st = [] := rfl

/-- **C6** (amended): withdrawal creation persists NO transaction record;
the approve and decline handlers only rewrite an already-existing matching
`pending` transaction (to `completed` / `failed` respectively).  Since no
ledger operation ever creates a transaction, a system whose transaction
store starts empty keeps it empty across any sequence of ledger operations
— the claimed status synchronisation never has a record to act on. -/
theorem c6_transactions_stay_empty (s : LedgerState) (ops : List Op)
    (h : s.transactions = []) : (run s ops).transactions = [] := by
  induction ops generalizing s with
  | nil => simpa [run] using h
  | cons op ops ih =>
    refine ih (applyOp s op) ?_
    cases op with
    | createW a m =>
      simp only [applyOp, createWithdrawal]
      split
      next => exact h
      next =>
        split
        next => exact h
        next => simpa using h
    | approveW id =>
      simp only [applyOp, approveWithdrawal]
      split
      next => exact h
      next w hw => simp [orSame, h, txMatchUpdate_nil]
    | declineW id =>
      simp only [applyOp, declineWithdrawal]
      split
      next => exact h
      next w hw => simp [orSame, h, txMatchUpdate_nil]
    | payW id =>
      simp only [applyOp, markWithdrawalPaid]
      split
      next => exact h
      next w hw =>
        split
        next => exact h
        next => simpa using h
    | taskFixed => simpa [applyOp, completeTaskFixed] using h
    | taskReward r d =>
      simp only [applyOp, completeTaskWithReward]
      split
      next => exact h
      next =>
        split
        next => exact h
        next => simpa using h
    | deposit a t l =>
      cases t with
      | registration => simpa [applyOp, confirmDeposit] using h
      | upgradePay => simpa [applyOp, confirmDeposit] using h
      | other => simpa [applyOp, confirmDeposit] using h

/-- Witness for `c6_transactions_stay_empty`: the spec's worked scenario
leaves the transaction store empty. -/
theorem c6_witness :
    demoState.transactions = [] ∧
    (run demoState [Op.createW 400 true, Op.approveW 0, Op.payW 0]).transactions = [] :=
  ⟨by decide, c6_transactions_stay_empty demoState
    [Op.createW 400 true, Op.approveW 0, Op.payW 0] (by decide)⟩

/-- Upgrade status enum (`src/models/Upgrade.js`, default `pending`). -/
inductive UpgStatus
  | pending
  | approved
  | rejected
deriving DecidableEq, Repr

/-- A persisted upgrade record. -/
structure Upg where
  level : Int
  amount : Int
  status : UpgStatus
deriving DecidableEq, Repr

/-- The state the upgrade machinery acts on: the user's level and account
status plus the upgrade store. -/
structure UserAcct where
  level : Int
  status : UStatus
  upgrades : List Upg
deriving DecidableEq, Repr

/-- `POST /upgrade` (`src/unnamed/part_008` lines 257-285): reject when
`!level || !amount` (for integers JS truthiness rejects exactly 0) or when
`level <= user.level`; otherwise persist a `pending` upgrade AND set
`user.level = level` immediately, before any approval. -/
def requestUpgrade (u : UserAcct) (level amount : Int) : Except LErr UserAcct :=
  if level = 0 ∨ amount = 0 then Except.error LErr.missingFields
  else if level ≤ u.level then Except.error LErr.levelNotHigher
  else
    Except.ok { u with
      upgrades := u.upgrades ++ [{ level := level, amount := amount,
                                   status := UpgStatus.pending }],
      level := level }

/-- `approveUpgrade` (`src/controllers/adminController.js` lines 526-551):
404 when the upgrade does not exist; otherwise — with no check of the
upgrade's current status and no comparison with the user's current level —
set the upgrade `approved`, the user's level to the upgrade's level and the
user's status to `active`. -/
def approveUpgradeOp (u : UserAcct) (id : Nat) : Except LErr UserAcct :=
  match u.upgrades[id]? with
  | none => Except.error LErr.notFound
  | some up =>
    Except.ok { u with
      upgrades := u.upgrades.set id { up with status := UpgStatus.approved },
      level := up.level,
      status := UStatus.active }

/-- `rejectUpgrade` (`src/controllers/adminController.js` lines 554-575):
mark the upgrade `rejected`; no level or status change on the user. -/
def rejectUpgradeOp (u : UserAcct) (id : Nat) : Except LErr UserAcct :=
  match u.upgrades[id]? with
  | none => Except.error LErr.notFound
  | some up =>
    Except.ok { u with
      upgrades := u.upgrades.set id { up with status := UpgStatus.rejected } }

/-- The operations touching `user.level`. -/
inductive UOp
  | request (level amount : Int)
  | approve (id : Nat)
  | reject (id : Nat)
deriving DecidableEq, Repr

/-- Error responses leave the account unchanged. -/
def uorSame (r : Except LErr UserAcct) (u : UserAcct) : UserAcct :=
  match r with
  | Except.ok u' => u'
  | Except.error _ => u

def applyUOp (u : UserAcct) : UOp → UserAcct
  | UOp.request lv am => uorSame (requestUpgrade u lv am) u
  | UOp.approve id => uorSame (approveUpgradeOp u id) u
  | UOp.reject id => uorSame (rejectUpgradeOp u id) u

def runU (u : UserAcct) : List UOp → UserAcct
  | [] => u
  | op :: ops => runU (applyUOp u op) ops

/-- Account-level invariant: the level is at least 1 and every stored
upgrade targets a level of at least 2 (requests are only accepted above the
then-current level, which is at least 1). -/
def InvU (u : UserAcct) : Prop :=
  1 ≤ u.level ∧ ∀ up ∈ u.upgrades, 2 ≤ up.level

theorem invU_applyUOp (u : UserAcct) (op : UOp) (h : InvU u) :
    InvU (applyUOp u op) := by
  obtain ⟨hlv, hups⟩ := h
  cases op with
  | request lv am =>
    simp only [applyUOp, requestUpgrade]
    split
    next => exact ⟨hlv, hups⟩
    next =>
      split
      next => exact ⟨hlv, hups⟩
      next hle =>
        push_neg at hle
        refine ⟨?_, ?_⟩
        · show 1 ≤ lv
          omega
        · intro up hup
          rcases List.mem_append.1 hup with hm | hm
          · exact hups up hm
          · simp only [List.mem_singleton] at hm
            subst hm
            show 2 ≤ lv
            omega
  | approve id =>
    simp only [applyUOp, approveUpgradeOp]
    split
    next => exact ⟨hlv, hups⟩
    next up hup =>
      have h2 : 2 ≤ up.level := hups up (mem_of_lookup _ _ _ hup)
      refine ⟨?_, ?_⟩
      · show 1 ≤ up.level
        omega
      · intro x hx
        rcases List.mem_or_eq_of_mem_set hx with hm | hm
        · exact hups x hm
        · subst hm
          exact h2
  | reject id =>
    simp only [applyUOp, rejectUpgradeOp]
    split
    next => exact ⟨hlv, hups⟩
    next up hup =>
      refine ⟨hlv, ?_⟩
      intro x hx
      rcases List.mem_or_eq_of_mem_set hx with hm | hm
      · exact hups x hm
      · subst hm
        exact hups up (mem_of_lookup _ _ _ hup)

theorem invU_runU (u : UserAcct) (ops : List UOp) (h : InvU u) :
    InvU (runU u ops) := by
  induction ops generalizing u with
  | nil => simpa [runU] using h
  | cons op ops ih => exact ih (applyUOp u op) (invU_applyUOp u op h)

/-- A fresh account at level 1 with no upgrades. -/
def freshAcct : UserAcct := { level := 1, status := UStatus.active, upgrades := [] }

/-- **C7** (counterexample to the claim as stated): the claim asserts that
only Upgrade approval modifies `user.level` and that the level is
monotonically non-decreasing.  (a) Merely requesting an upgrade to level 2
— which stays `pending` — already sets the level to 2.  (b) After
requesting level 2 and then level 3, approving the FIRST (level-2) upgrade
drops the level from 3 back to 2: not monotone. -/
theorem c7_request_changes_level :
    (runU freshAcct [UOp.request 2 100]).level = 2 ∧
    (runU freshAcct [UOp.request 2 100]).upgrades
      = [{ level := 2, amount := 100, status := UpgStatus.pending }] ∧
    (runU freshAcct [UOp.request 2 100, UOp.request 3 200]).level = 3 ∧
    (runU freshAcct [UOp.request 2 100, UOp.request 3 200, UOp.approve 0]).level = 2 := by
  decide

/-- **C7** (amended): starting from an account with level ≥ 1 whose stored
upgrades all target levels ≥ 2, the level stays ≥ 1 under any sequence of
upgrade operations; but the level is NOT modified only by approval: a
successful upgrade request immediately sets the level to the requested
target (strictly above the previous level), and approval sets the level to
the upgrade's target with no status or monotonicity check, so approving an
older lower-target upgrade after a newer higher request decreases the
level. -/
theorem c7_level_behaviour (u : UserAcct) (ops : List UOp) (h : InvU u) :
    1 ≤ (runU u ops).level ∧
    (∀ v lv am v', requestUpgrade v lv am = Except.ok v' →
      v.level < v'.level ∧ v'.level = lv) ∧
    (∀ v id up, v.upgrades[id]? = some up →
      approveUpgradeOp v id =
        Except.ok { v with
          upgrades := v.upgrades.set id { up with status := UpgStatus.approved },
          level := up.level,
          status := UStatus.active }) := by
  refine ⟨(invU_runU u ops h).1, ?_, ?_⟩
  · intro v lv am v' hok
    unfold requestUpgrade at hok
    split at hok
    next => exact absurd hok (by simp)
    next =>
      split at hok
      next => exact absurd hok (by simp)
      next hle =>
        push_neg at hle
        injection hok with hok
        subst hok
        constructor
        · show v.level < lv
          omega
        · rfl
  · intro v id up hup
    simp [approveUpgradeOp, hup]

/-- Witness for `c7_level_behaviour`: from a fresh level-1 account the
level stays ≥ 1 across request(2); request(3); approve(0). -/
theorem c7_witness :
    InvU freshAcct ∧
    1 ≤ (runU freshAcct [UOp.request 2 100, UOp.request 3 200, UOp.approve 0]).level :=
  ⟨by unfold InvU; decide,
    (c7_level_behaviour freshAcct [UOp.request 2 100, UOp.request 3 200, UOp.approve 0]
      (by unfold InvU; decide)).1⟩

/-- The referrer-side accrual counters of a user
(`src/models/User.js` lines 18-19). -/
structure Referrer where
  invites : Int
  referralBonus : Int
deriving DecidableEq, Repr

/-- A persisted Referral record: the (referrer, referred) pair, by user id. -/
structure ReferralRec where
  referrer : Nat
  referred : Nat
deriving DecidableEq, Repr

/-- The referral block of `POST /signup` in `src/routes/new.js` (lines
60-96), applied once the supplied code has resolved to referrer `aId` and
the new user `bId` has been saved: create one Referral record and increment
the referrer's `invites` by 1.  `referralBonus` is not touched. -/
def signupReferralNewJs (a : Referrer) (store : List ReferralRec) (aId bId : Nat) :
    Referrer × List ReferralRec :=
  ({ a with invites := a.invites + 1 },
   store ++ [{ referrer := aId, referred := bId }])

/-- The referral block of `POST /signup` in `src/unnamed/part_009` (lines
973-985), applied when `referredBy` resolved to an existing referrer: add
1000 to the referrer's `referralBonus` and 1 to `invites`.  No Referral
record is created. -/
def signupReferralBonus (a : Referrer) (store : List ReferralRec) :
    Referrer × List ReferralRec :=
  ({ invites := a.invites + 1, referralBonus := a.referralBonus + 1000 }, store)

/-- Number of Referral records for the pair `(aId, bId)`. -/
def countPair (store : List ReferralRec) (aId bId : Nat) : Nat :=
  (store.filter fun r => r.referrer == aId && r.referred == bId).length

/-- **C8** (counterexample to the claim as stated): the claim asserts that
after a referred signup the referrer's `invites` grows by 1 AND
`referralBonus` grows by the 1000 bonus constant AND exactly one Referral
record exists for the pair.  Neither signup variant does all three: in
`src/routes/new.js` the bonus stays 0 (only the invite counter and the
Referral record are written); in `src/unnamed/part_009` no Referral record
is created (only the counters are written). -/
theorem c8_no_variant_does_all_three :
    (signupReferralNewJs { invites := 0, referralBonus := 0 } [] 1 2).1.referralBonus
      = 0 ∧
    (signupReferralBonus { invites := 0, referralBonus := 0 } []).2 = [] := by
  decide

/-- **C8** (amended): when user B signs up with a valid code of user A,
A's `invites` increases by exactly 1 in both variants; in the
`src/routes/new.js` variant exactly one Referral record is created for the
pair (A,B) (given none existed) but `referralBonus` is unchanged; in the
`src/unnamed/part_009` variant `referralBonus` increases by exactly the
1000 bonus constant but no Referral record is created. -/
theorem c8_referral_accrual (a : Referrer) (store : List ReferralRec)
    (aId bId : Nat) (h : countPair store aId bId = 0) :
    (signupReferralNewJs a store aId bId).1.invites = a.invites + 1 ∧
    (signupReferralNewJs a store aId bId).1.referralBonus = a.referralBonus ∧
    countPair (signupReferralNewJs a store aId bId).2 aId bId = 1 ∧
    (signupReferralBonus a store).1.invites = a.invites + 1 ∧
    (signupReferralBonus a store).1.referralBonus = a.referralBonus + 1000 ∧
    (signupReferralBonus a store).2 = store := by
  refine ⟨rfl, rfl, ?_, rfl, rfl, rfl⟩
  simp [countPair] at h
  simp [signupReferralNewJs, countPair, List.filter_append, List.filter]
  exact h

/-- Witness for `c8_referral_accrual` at a concrete empty store. -/
theorem c8_witness :
    countPair [] 1 2 = 0 ∧
    countPair (signupReferralNewJs { invites := 5, referralBonus := 300 } [] 1 2).2 1 2
      = 1 :=
  ⟨by decide,
    (c8_referral_accrual { invites := 5, referralBonus := 300 } [] 1 2 (by decide)).2.2.1⟩

/-- **C9** (confirmed): the reward-parameter task-completion variant
(`src/unnamed/part_009` lines 1288-1334), for any user whose `lastTaskDate`
is not today's date string and any caller-supplied reward `r > 0`, adds
exactly `r` to `balance.available` (the amount comes from the request, not
from any stored Task), adds 1 to `tasksCompleted` and sets `lastTaskDate`
to today; and the fixed variant (`src/unnamed/part_008` lines 327-345)
credits 500 and increments the counter on EVERY call, with no once-per-day
gate. -/
theorem c9_task_completion (s : LedgerState) (r : Int) (today : String)
    (h1 : 0 < r) (h2 : s.lastTaskDate ≠ some today) :
    completeTaskWithReward s r today =
      Except.ok { s with
        tasksCompleted := s.tasksCompleted + 1,
        balance := { s.balance with available := s.balance.available + r },
        lastTaskDate := some today } ∧
    (∀ t : LedgerState,
      (completeTaskFixed t).balance.available = t.balance.available + 500 ∧
      (completeTaskFixed t).tasksCompleted = t.tasksCompleted + 1 ∧
      (completeTaskFixed t).lastTaskDate = t.lastTaskDate) := by
  constructor
  · have hr : ¬r ≤ 0 := by omega
    simp [completeTaskWithReward, hr, h2]
  · intro t
    exact ⟨rfl, rfl, rfl⟩

/-- Witness for `c9_task_completion`: a reward of 750 on a user who has not
completed a task today. -/
theorem c9_witness :
    (0 : Int) < 750 ∧ demoState.lastTaskDate ≠ some "2026-10-12" ∧
    completeTaskWithReward demoState 750 "2026-10-12" =
      Except.ok { demoState with
        tasksCompleted := 1,
        balance := { available := 1750, pending := 0 },
        lastTaskDate := some "2026-10-12" } :=
  ⟨by decide, by decide,
    (c9_task_completion demoState 750 "2026-10-12" (by decide) (by decide)).1⟩

/-- **C10** (confirmed): the deposit-confirmation handler
(`src/unnamed/part_008` lines 202-224) with type `registration`
unconditionally sets the user's status to `active` and adds exactly the
caller-supplied amount to `balance.available`, for EVERY amount — negative
amounts included: there is no positivity check, no upper bound and no
payment verification.  The `withRetry` variant (`src/unnamed/part_009`
lines 296-327) behaves identically for every truthy (non-zero) amount. -/
theorem c10_registration_deposit_unchecked (s : LedgerState) (a : Int) (lv : Int) :
    confirmDeposit s a DepType.registration lv =
      { s with
        userStatus := UStatus.active,
        balance := { s.balance with available := s.balance.available + a } } ∧
    (a ≠ 0 →
      confirmDepositRetry s a DepType.registration lv =
        Except.ok { s with
          userStatus := UStatus.active,
          balance := { s.balance with available := s.balance.available + a } }) := by
  constructor
  · rfl
  · intro ha
    simp [confirmDepositRetry, ha, confirmDeposit]

/-- Witness for `c10_registration_deposit_unchecked`: a NEGATIVE deposit of
-250 is accepted by both variants, activates the account and debits the
available balance. -/
theorem c10_witness :
    confirmDepositRetry demoState (-250) DepType.registration 1 =
      Except.ok { demoState with
        userStatus := UStatus.active,
        balance := { available := 750, pending := 0 } } :=
  (c10_registration_deposit_unchecked demoState (-250) 1).2 (by decide)

end DTA
